import Mathlib

/-!
Verification of the mautrix-simplex protocol engine (simplexclient /
connector / simplexid packages) against its design specification.

Go strings are modelled as lists of Unicode code points (`Str`); Go's
`int64` is modelled as `Int` with explicit range bounds `int64Min`/`int64Max`
and explicit wrap-around (`wrap64`) where overflow matters; Go functions
returning `(T, error)` are modelled as `Option T` (`none` = non-nil error).
-/

namespace Bridge

/-- Go string modelled as its list of Unicode code points. -/
abbrev Str := List Nat

/-- Little-endian base-10 digits of a natural number, as produced by the
decimal printer behind Go's `fmt.Sprintf("%d", _)`. -/
def toDigitsLE (n : Nat) : List Nat :=
  if _h : n < 10 then [n]
  else (n % 10) :: toDigitsLE (n / 10)
decreasing_by exact Nat.div_lt_self (by omega) (by omega)

/-- Value of a little-endian digit list. -/
def ofDigitsLE : List Nat → Nat
  | [] => 0
  | d :: ds => d + 10 * ofDigitsLE ds

theorem ofDigitsLE_toDigitsLE (n : Nat) : ofDigitsLE (toDigitsLE n) = n := by
  induction n using Nat.strong_induction_on with
  | _ n ih =>
    rw [toDigitsLE]
    split
    · simp [ofDigitsLE]
    · simp only [ofDigitsLE, ih (n / 10) (Nat.div_lt_self (by omega) (by omega))]
      omega

theorem toDigitsLE_ne_nil (n : Nat) : toDigitsLE n ≠ [] := by
  rw [toDigitsLE]
  split <;> simp

theorem toDigitsLE_lt_ten (n : Nat) : ∀ d ∈ toDigitsLE n, d < 10 := by
  induction n using Nat.strong_induction_on with
  | _ n ih =>
    rw [toDigitsLE]
    split
    · simpa using by omega
    · intro d hd
      rcases List.mem_cons.mp hd with h | h
      · omega
      · exact ih (n / 10) (Nat.div_lt_self (by omega) (by omega)) d h

/-- Decimal rendering of a natural number as code points, matching Go's
`%d` output for non-negative values: most-significant digit first. -/
def natRepr (n : Nat) : Str :=
  (toDigitsLE n).reverse.map (fun d => 48 + d)

/-- Decimal rendering of an `int64`, matching Go's `%d`: a leading `-`
(code point 45) for negative values, digits otherwise. -/
def intRepr (i : Int) : Str :=
  if i < 0 then 45 :: natRepr (-i).toNat else natRepr i.toNat

/-- Test that a code point is an ASCII decimal digit, as Go's `strconv`
digit loop accepts for base 10. -/
def isDigit (c : Nat) : Bool := decide (48 ≤ c ∧ c ≤ 57)

/-- Accumulated numeric value of a digit string, most-significant first. -/
def charsVal (cs : Str) : Nat :=
  cs.foldl (fun a c => 10 * a + (c - 48)) 0

theorem charsVal_append_single (cs : Str) (c : Nat) :
    charsVal (cs ++ [c]) = 10 * charsVal cs + (c - 48) := by
  simp [charsVal, List.foldl_append]

theorem charsVal_digits (ds : List Nat) (h : ∀ d ∈ ds, d < 10) :
    charsVal (ds.reverse.map (fun d => 48 + d)) = ofDigitsLE ds := by
  induction ds with
  | nil => simp [charsVal, ofDigitsLE]
  | cons d tl ih =>
    have hd : d < 10 := h d (by simp)
    have htl : ∀ x ∈ tl, x < 10 := fun x hx => h x (by simp [hx])
    simp only [List.reverse_cons, List.map_append, List.map_cons, List.map_nil]
    rw [charsVal_append_single, ih htl]
    simp [ofDigitsLE]
    omega

theorem charsVal_natRepr (n : Nat) : charsVal (natRepr n) = n := by
  rw [natRepr, charsVal_digits _ (toDigitsLE_lt_ten n), ofDigitsLE_toDigitsLE]

theorem natRepr_ne_nil (n : Nat) : natRepr n ≠ [] := by
  simp [natRepr, toDigitsLE_ne_nil n]

theorem natRepr_all_digits (n : Nat) : (natRepr n).all isDigit = true := by
  rw [List.all_eq_true]
  intro c hc
  simp only [natRepr, List.mem_map, List.mem_reverse] at hc
  obtain ⟨d, hd, rfl⟩ := hc
  have := toDigitsLE_lt_ten n d hd
  simp [isDigit]; omega

theorem natRepr_head_digit (n : Nat) (c : Nat) (rest : Str)
    (h : natRepr n = c :: rest) : 48 ≤ c ∧ c ≤ 57 := by
  have hall := natRepr_all_digits n
  rw [h, List.all_eq_true] at hall
  have := hall c (by simp)
  simpa [isDigit] using this

/-- Digit-run parser of Go's `strconv.ParseUint` loop for base 10: the run
must be non-empty and all digits. -/
def parseDigits (cs : Str) : Option Nat :=
  if cs ≠ [] ∧ cs.all isDigit = true then some (charsVal cs) else none

theorem parseDigits_natRepr (n : Nat) : parseDigits (natRepr n) = some n := by
  rw [parseDigits, if_pos ⟨natRepr_ne_nil n, natRepr_all_digits n⟩, charsVal_natRepr]

/-- Smallest `int64` value. -/
def int64Min : Int := -(2 ^ 63)

/-- Largest `int64` value. -/
def int64Max : Int := 2 ^ 63 - 1

/-- Range check of `strconv.ParseInt(s, 10, 64)` for an unsigned parse
result used positively: values above `int64Max` are a range error. -/
def fitPos (n? : Option Nat) : Option Int :=
  n?.bind fun n => if (n : Int) ≤ 2 ^ 63 - 1 then some (n : Int) else none

/-- Range check of `strconv.ParseInt(s, 10, 64)` for a `-`-signed parse:
magnitudes up to `2^63` are accepted and negated. -/
def fitNeg (n? : Option Nat) : Option Int :=
  n?.bind fun n => if (n : Int) ≤ 2 ^ 63 then some (-(n : Int)) else none

/-- Model of Go's `strconv.ParseInt(s, 10, 64)`: optional single sign
(`-` = 45, `+` = 43), then a non-empty all-digit run, with the `int64`
range check; `none` models a non-nil error. -/
def goParseInt64 (s : Str) : Option Int :=
  match s with
  | [] => none
  | c :: rest =>
    if c = 45 then fitNeg (parseDigits rest)
    else if c = 43 then fitPos (parseDigits rest)
    else fitPos (parseDigits (c :: rest))

theorem fitPos_some (n : Nat) (h : (n : Int) ≤ 2 ^ 63 - 1) :
    fitPos (some n) = some (n : Int) := by
  simp [fitPos, h]
  omega

theorem fitNeg_some (n : Nat) (h : (n : Int) ≤ 2 ^ 63) :
    fitNeg (some n) = some (-(n : Int)) := by
  simp [fitNeg, h]
  omega

theorem goParseInt64_natRepr (n : Nat) (hle : (n : Int) ≤ 2 ^ 63 - 1) :
    goParseInt64 (natRepr n) = some (n : Int) := by
  rcases hn : natRepr n with _ | ⟨c, rest⟩
  · exact absurd hn (natRepr_ne_nil n)
  · have hc := natRepr_head_digit n c rest hn
    have h45 : ¬(c = 45) := by omega
    have h43 : ¬(c = 43) := by omega
    have hp : parseDigits (c :: rest) = some n := by rw [← hn, parseDigits_natRepr]
    simp only [goParseInt64, if_neg h45, if_neg h43, hp, fitPos_some n hle]

theorem goParseInt64_intRepr (i : Int) (hlo : int64Min ≤ i) (hhi : i ≤ int64Max) :
    goParseInt64 (intRepr i) = some i := by
  rw [intRepr]
  split
  · rename_i hneg
    have htn : (((-i).toNat : Int)) = -i := Int.toNat_of_nonneg (by omega)
    have hle : (((-i).toNat : Int)) ≤ 2 ^ 63 := by
      rw [htn]; simp only [int64Min] at hlo; omega
    simp only [goParseInt64, if_pos rfl, parseDigits_natRepr, fitNeg_some _ hle, htn,
      neg_neg]
    simp
  · rename_i hpos
    have htn : ((i.toNat : Int)) = i := Int.toNat_of_nonneg (by omega)
    have h1 := goParseInt64_natRepr i.toNat (by rw [htn]; simpa [int64Max] using hhi)
    rw [h1, htn]

/-- ChatType from pkg/simplexclient: a one-character string, `"@"` (64) for
direct chats and `"#"` (35) for groups. -/
abbrev ChatType := Str

/-- ChatTypeDirect = `"@"`. -/
def chatTypeDirect : ChatType := [64]

/-- ChatTypeGroup = `"#"`. -/
def chatTypeGroup : ChatType := [35]

/-- MakeGroupPortalID from pkg/simplexid: `fmt.Sprintf("g:%d", groupID)`. -/
def makeGroupPortalID (groupID : Int) : Str := [103, 58] ++ intRepr groupID

/-- MakeDMPortalID from pkg/simplexid: `fmt.Sprintf("d:%d", contactID)`. -/
def makeDMPortalID (contactID : Int) : Str := [100, 58] ++ intRepr contactID

/-- ParsePortalID from pkg/simplexid: dispatches on the `"g:"` / `"d:"`
literal heads (`strings.HasPrefix`), parses the rest with
`strconv.ParseInt(s[2:], 10, 64)`, and errors on any other shape. -/
def parsePortalID (s : Str) : Option (ChatType × Int) :=
  if s.take 2 = [103, 58] then
    (goParseInt64 (s.drop 2)).map (fun id => (chatTypeGroup, id))
  else if s.take 2 = [100, 58] then
    (goParseInt64 (s.drop 2)).map (fun id => (chatTypeDirect, id))
  else none

/-- MakeUserID from pkg/simplexid: `fmt.Sprintf("%d", contactID)`. -/
def makeUserID (contactID : Int) : Str := intRepr contactID

/-- MakeMemberUserID from pkg/simplexid: `fmt.Sprintf("m:%s", memberID)`. -/
def makeMemberUserID (memberID : Str) : Str := [109, 58] ++ memberID

/-- ParseUserID from pkg/simplexid: returns -1 for `"m:"`-headed member
ids, otherwise `strconv.ParseInt(s, 10, 64)`. -/
def parseUserID (s : Str) : Option Int :=
  if s.take 2 = [109, 58] then some (-1) else goParseInt64 s

/-- MakeMessageID from pkg/simplexid: `fmt.Sprintf("%d", chatItemID)`. -/
def makeMessageID (chatItemID : Int) : Str := intRepr chatItemID

/-- ParseMessageID from pkg/simplexid: `strconv.ParseInt(s, 10, 64)`. -/
def parseMessageID (s : Str) : Option Int := goParseInt64 s

theorem take_two_append (a b : Nat) (rest : Str) :
    (([a, b] ++ rest).take 2) = [a, b] := rfl

/-- C7: `ParsePortalID ∘ MakeGroupPortalID` and `ParsePortalID ∘ MakeDMPortalID`
recover the kind and the id, `ParseMessageID ∘ MakeMessageID` recovers the
item id, the two portal kinds never collide, and any string accepted by a
parser has a recognized encoded form (`"g:"`/`"d:"` head with an integer
tail for portals, an integer for messages); everything else is an error. -/
theorem c7_identity_encoding_bijection :
    (∀ g : Int, int64Min ≤ g → g ≤ int64Max →
      parsePortalID (makeGroupPortalID g) = some (chatTypeGroup, g)) ∧
    (∀ c : Int, int64Min ≤ c → c ≤ int64Max →
      parsePortalID (makeDMPortalID c) = some (chatTypeDirect, c)) ∧
    (∀ i : Int, int64Min ≤ i → i ≤ int64Max →
      parseMessageID (makeMessageID i) = some i) ∧
    (∀ g c : Int, makeGroupPortalID g ≠ makeDMPortalID c) ∧
    (∀ s : Str, parsePortalID s ≠ none →
      (s = [103, 58] ++ s.drop 2 ∨ s = [100, 58] ++ s.drop 2) ∧
        goParseInt64 (s.drop 2) ≠ none) ∧
    (∀ s : Str, parseMessageID s ≠ none → goParseInt64 s ≠ none) := by
  refine ⟨?_, ?_, ?_, ?_, ?_, ?_⟩
  · intro g hlo hhi
    rw [makeGroupPortalID, parsePortalID, if_pos (take_two_append _ _ _)]
    simp [goParseInt64_intRepr g hlo hhi]
  · intro c hlo hhi
    rw [makeDMPortalID, parsePortalID]
    rw [if_neg (by simp [take_two_append]), if_pos (take_two_append _ _ _)]
    simp [goParseInt64_intRepr c hlo hhi]
  · intro i hlo hhi
    rw [makeMessageID, parseMessageID, goParseInt64_intRepr i hlo hhi]
  · intro g c h
    have : ([103, 58] ++ intRepr g).head? = ([100, 58] ++ intRepr c).head? := by
      rw [makeGroupPortalID, makeDMPortalID] at h
      rw [h]
    simp at this
  · intro s h
    rw [parsePortalID] at h
    split at h
    · rename_i ht
      refine ⟨Or.inl ?_, ?_⟩
      · conv_lhs => rw [← List.take_append_drop 2 s]
        rw [ht]
      · intro hn
        rw [hn] at h
        simp at h
    · split at h
      · rename_i ht
        refine ⟨Or.inr ?_, ?_⟩
        · conv_lhs => rw [← List.take_append_drop 2 s]
          rw [ht]
        · intro hn
          rw [hn] at h
          simp at h
      · simp at h
  · intro s h
    exact h

/-- Witness: the C7 bijection at concrete ids 5, -3 and 7. -/
theorem c7_identity_encoding_bijection_witness :
    parsePortalID (makeGroupPortalID 5) = some (chatTypeGroup, 5) ∧
    parsePortalID (makeDMPortalID (-3)) = some (chatTypeDirect, -3) ∧
    parseMessageID (makeMessageID 7) = some 7 :=
  ⟨c7_identity_encoding_bijection.1 5 (by decide) (by decide),
   c7_identity_encoding_bijection.2.1 (-3) (by decide) (by decide),
   c7_identity_encoding_bijection.2.2.1 7 (by decide) (by decide)⟩

/-- C9: ParseUserID maps every `"m:"`-headed user id to the sentinel -1
with no error, leaves every other input to the integer parser (parsed id
or error), and the sentinel is indistinguishable from parsing the literal
string `"-1"`. -/
theorem c9_parse_user_id_member_sentinel :
    (∀ rest : Str, parseUserID ([109, 58] ++ rest) = some (-1)) ∧
    (∀ m : Str, parseUserID (makeMemberUserID m) = some (-1)) ∧
    (∀ s : Str, s.take 2 ≠ [109, 58] → parseUserID s = goParseInt64 s) ∧
    (∀ m : Str, parseUserID (makeMemberUserID m) = parseUserID (makeUserID (-1))) := by
  have h1 : ∀ rest : Str, parseUserID ([109, 58] ++ rest) = some (-1) := by
    intro rest
    rw [parseUserID, if_pos (take_two_append _ _ _)]
  refine ⟨h1, fun m => h1 m, ?_, ?_⟩
  · intro s hs
    rw [parseUserID, if_neg hs]
  · intro m
    rw [makeMemberUserID, h1 m]
    have : parseUserID (makeUserID (-1)) = goParseInt64 (intRepr (-1)) := by
      rw [parseUserID, makeUserID]
      rw [if_neg (by decide)]
    rw [this, goParseInt64_intRepr (-1) (by decide) (by decide)]

/-- Witness: C9 at the member id `"ab"` ([97, 98]) and the plain id `"7"`. -/
theorem c9_parse_user_id_member_sentinel_witness :
    parseUserID (makeMemberUserID [97, 98]) = some (-1) ∧
    parseUserID [55] = goParseInt64 [55] :=
  ⟨c9_parse_user_id_member_sentinel.2.1 [97, 98],
   c9_parse_user_id_member_sentinel.2.2.1 [55] (by decide)⟩

/-! Transport multiplexer: `Client.readLoop` and `Client.sendRaw`
(pkg/simplexclient websocket client). The `pending` Go map
(`map[string]chan json.RawMessage`) is modelled as a canonical-form
association list from correlation id to a waiter-slot identifier; each
slot stands for one `sendRaw` caller's one-shot channel. -/

/-- Lookup in the pending map (`ch, ok := c.pending[corrID]`). -/
def mapLookup (m : List (Str × Nat)) (k : Str) : Option Nat :=
  match m with
  | [] => none
  | p :: tl => if p.1 = k then some p.2 else mapLookup tl k

/-- Go `delete(m, k)`. -/
def mapErase (m : List (Str × Nat)) (k : Str) : List (Str × Nat) :=
  m.filter (fun p => p.1 ≠ k)

/-- Go `m[k] = v` (insert or overwrite). -/
def mapInsert (m : List (Str × Nat)) (k : Str) (v : Nat) : List (Str × Nat) :=
  (k, v) :: mapErase m k

theorem mapErase_of_lookup_none (m : List (Str × Nat)) (k : Str)
    (h : mapLookup m k = none) : mapErase m k = m := by
  induction m with
  | nil => rfl
  | cons p tl ih =>
    rw [mapLookup] at h
    split at h
    · exact absurd h (by simp)
    · rename_i hne
      rw [mapErase, List.filter_cons]
      rw [if_pos (by simpa using hne)]
      rw [mapErase] at ih
      rw [ih h]

/-- Payload of an inbound frame's `resp` field: the best-effort extracted
`type` tag (empty list when absent/unparsable) and an identifier standing
for the raw JSON bytes. -/
abbrev Resp := Str × Nat

/-- One result of `c.ws.Read` in `readLoop`: a transport error, a frame
whose top-level JSON failed to unmarshal, or an unmarshalled frame with
its optional `corrId` and optional `resp`. -/
inductive ReadItem where
  | err : ReadItem
  | malformed : ReadItem
  | frame (corrId : Option Str) (resp : Option Resp) : ReadItem

/-- State of the multiplexer observed by `readLoop`, instrumented with the
histories the claims are about: `deliveries` records each `ch <- msg.Resp`
hand-off as (slot, resp); `closedSlots` records slots whose channel was
closed at teardown; `eventsQ` is the buffered events channel (capacity 64);
`eventsClosedCount` counts `close(c.eventsCh)` executions. -/
structure MuxState where
  pending : List (Str × Nat)
  eventsQ : List Resp
  deliveries : List (Nat × Option Resp)
  closedSlots : List Nat
  eventsClosedCount : Nat
deriving DecidableEq

/-- Capacity of `eventsCh` (`make(chan Event, 64)`). -/
def eventsCap : Nat := 64

/-- Enqueue on the events channel with the non-blocking
`select { case c.eventsCh <- evt: default: /- drop -/ }`. -/
def enqueueEvent (st : MuxState) (r : Resp) : MuxState :=
  if st.eventsQ.length < eventsCap then { st with eventsQ := st.eventsQ ++ [r] }
  else st

/-- One iteration of `Client.readLoop` on one read result, while holding
`c.mu` for the pending-map accesses; on `err` it performs the teardown
branch (close every pending channel, reset the map, close `eventsCh`). -/
def readStep (st : MuxState) (it : ReadItem) : MuxState :=
  match it with
  | .err =>
    { st with
      pending := []
      closedSlots := st.closedSlots ++ st.pending.map (fun p => p.2)
      eventsClosedCount := st.eventsClosedCount + 1 }
  | .malformed => st
  | .frame corrId resp =>
    match corrId with
    | some c =>
      match mapLookup st.pending c with
      | some slot =>
        { st with
          pending := mapErase st.pending c
          deliveries := st.deliveries ++ [(slot, resp)] }
      | none =>
        match resp with
        | some r => if r.1 ≠ [] then enqueueEvent st r else st
        | none => st
    | none =>
      match resp with
      | some r => if r.1 ≠ [] then enqueueEvent st r else st
      | none => st

/-- Run of `readLoop` over a finite list of read results: the loop body
repeats until a read error, whose teardown branch ends the goroutine
(`return`), so anything after the first `err` is never processed. -/
def runReadLoop (st : MuxState) : List ReadItem → MuxState
  | [] => st
  | it :: rest =>
    match it with
    | .err => readStep st .err
    | .malformed => runReadLoop (readStep st .malformed) rest
    | .frame c r => runReadLoop (readStep st (.frame c r)) rest

/-- Result a blocked `sendRaw` caller extracts from its channel:
`resp, ok := <-ch` — a value means success, a closed channel (`!ok`,
modelled `none`) means the connection-closed error. -/
def sendRawAwait (delivered : Option (Option Resp)) : Option (Option Resp) :=
  match delivered with
  | some r => some r
  | none => none

/-- Effect of `Client.sendRaw` on the pending map: register the fresh
channel under `corrID`; if `json.Marshal` or `ws.Write` fails, delete the
registration and return the error. -/
def sendRawPending (pending : List (Str × Nat)) (corrID : Str) (slot : Nat)
    (marshalOk writeOk : Bool) : List (Str × Nat) :=
  let registered := mapInsert pending corrID slot
  if marshalOk = false then mapErase registered corrID
  else if writeOk = false then mapErase registered corrID
  else registered

theorem mapErase_mapInsert (m : List (Str × Nat)) (k : Str) (v : Nat)
    (h : mapLookup m k = none) : mapErase (mapInsert m k v) k = m := by
  have he := mapErase_of_lookup_none m k h
  rw [mapInsert, he, mapErase, List.filter_cons]
  rw [if_neg (by simp)]
  rw [show List.filter (fun p => p.1 ≠ k) m = mapErase m k from rfl, he]

theorem mapLookup_mapErase_self (m : List (Str × Nat)) (k : Str) :
    mapLookup (mapErase m k) k = none := by
  induction m with
  | nil => rfl
  | cons p tl ih =>
    rw [mapErase, List.filter_cons]
    split
    · rename_i hp
      have hne : p.1 ≠ k := by simpa using hp
      rw [mapLookup, if_neg hne]
      exact ih
    · exact ih

theorem mapLookup_mapErase_ne (m : List (Str × Nat)) (k k' : Str) (h : k' ≠ k) :
    mapLookup (mapErase m k) k' = mapLookup m k' := by
  induction m with
  | nil => rfl
  | cons p tl ih =>
    rw [mapErase, List.filter_cons]
    split
    · rw [mapLookup, mapLookup]
      split
      · rfl
      · exact ih
    · rename_i hp
      have hpk : p.1 = k := by simpa using hp
      rw [mapLookup, if_neg (by rw [hpk]; exact fun he => h he.symm)]
      exact ih

theorem enqueueEvent_deliveries (st : MuxState) (r : Resp) :
    (enqueueEvent st r).deliveries = st.deliveries := by
  rw [enqueueEvent]; split <;> rfl

theorem enqueueEvent_pending (st : MuxState) (r : Resp) :
    (enqueueEvent st r).pending = st.pending := by
  rw [enqueueEvent]; split <;> rfl

theorem enqueueEvent_closedSlots (st : MuxState) (r : Resp) :
    (enqueueEvent st r).closedSlots = st.closedSlots := by
  rw [enqueueEvent]; split <;> rfl

theorem enqueueEvent_eventsClosedCount (st : MuxState) (r : Resp) :
    (enqueueEvent st r).eventsClosedCount = st.eventsClosedCount := by
  rw [enqueueEvent]; split <;> rfl

/-- C1: while holding the mutex, the reader routes a frame whose `corrId`
has a pending registration to exactly that registered waiter: the payload
is handed to the slot stored under that id, the registration is deleted,
every other correlation id's registration is untouched, and nothing is
queued as an event; frames with an unmatched or absent `corrId` deliver to
no waiter at all, so no waiter ever observes a response issued under a
different correlation id, however many sends are outstanding. -/
theorem c1_response_correlation :
    (∀ (st : MuxState) (c : Str) (slot : Nat) (resp : Option Resp),
      mapLookup st.pending c = some slot →
      (readStep st (.frame (some c) resp)).deliveries = st.deliveries ++ [(slot, resp)] ∧
      (readStep st (.frame (some c) resp)).pending = mapErase st.pending c ∧
      mapLookup (readStep st (.frame (some c) resp)).pending c = none ∧
      (∀ c', c' ≠ c →
        mapLookup (readStep st (.frame (some c) resp)).pending c' =
          mapLookup st.pending c') ∧
      (readStep st (.frame (some c) resp)).eventsQ = st.eventsQ) ∧
    (∀ (st : MuxState) (c : Str) (resp : Option Resp),
      mapLookup st.pending c = none →
      (readStep st (.frame (some c) resp)).deliveries = st.deliveries ∧
      (readStep st (.frame (some c) resp)).pending = st.pending) ∧
    (∀ (st : MuxState) (resp : Option Resp),
      (readStep st (.frame none resp)).deliveries = st.deliveries ∧
      (readStep st (.frame none resp)).pending = st.pending) := by
  refine ⟨?_, ?_, ?_⟩
  · intro st c slot resp h
    refine ⟨by simp [readStep, h], by simp [readStep, h], ?_, ?_, by simp [readStep, h]⟩
    · simp only [readStep, h]
      exact mapLookup_mapErase_self _ _
    · intro c' hc'
      simp only [readStep, h]
      exact mapLookup_mapErase_ne _ _ _ hc'
  · intro st c resp h
    simp only [readStep, h]
    rcases resp with _ | r
    · exact ⟨rfl, rfl⟩
    · dsimp only
      split
      · exact ⟨enqueueEvent_deliveries _ _, enqueueEvent_pending _ _⟩
      · exact ⟨rfl, rfl⟩
  · intro st resp
    simp only [readStep]
    rcases resp with _ | r
    · exact ⟨rfl, rfl⟩
    · dsimp only
      split
      · exact ⟨enqueueEvent_deliveries _ _, enqueueEvent_pending _ _⟩
      · exact ⟨rfl, rfl⟩

/-- Witness: a response for corrId `"1"` ([49]) with two sends pending goes
to slot 10 registered under `"1"`, the other registration survives. -/
theorem c1_response_correlation_witness :
    (readStep (MuxState.mk [([49], 10), ([50], 20)] [] [] [] 0)
        (.frame (some [49]) (some ([97], 7)))).deliveries = [(10, some ([97], 7))] ∧
    (readStep (MuxState.mk [([49], 10), ([50], 20)] [] [] [] 0)
        (.frame (some [49]) (some ([97], 7)))).pending = [([50], 20)] := by
  have h := c1_response_correlation.1 (MuxState.mk [([49], 10), ([50], 20)] [] [] [] 0)
    [49] 10 (some ([97], 7)) (by decide)
  exact ⟨h.1, by rw [h.2.1]; decide⟩

theorem readStep_not_err_frame (st : MuxState) (it : ReadItem) (h : it ≠ .err) :
    (readStep st it).closedSlots = st.closedSlots ∧
    (readStep st it).eventsClosedCount = st.eventsClosedCount := by
  cases it with
  | err => exact absurd rfl h
  | malformed => exact ⟨rfl, rfl⟩
  | frame corrId resp =>
    simp only [readStep]
    rcases corrId with _ | c
    · rcases resp with _ | r
      · exact ⟨rfl, rfl⟩
      · dsimp only
        split
        · exact ⟨enqueueEvent_closedSlots _ _, enqueueEvent_eventsClosedCount _ _⟩
        · exact ⟨rfl, rfl⟩
    · dsimp only
      rcases hl : mapLookup st.pending c with _ | slot
      · rcases resp with _ | r
        · exact ⟨rfl, rfl⟩
        · dsimp only
          split
          · exact ⟨enqueueEvent_closedSlots _ _, enqueueEvent_eventsClosedCount _ _⟩
          · exact ⟨rfl, rfl⟩
      · exact ⟨rfl, rfl⟩

theorem runReadLoop_no_err (st : MuxState) (items : List ReadItem)
    (h : ReadItem.err ∉ items) :
    (runReadLoop st items).closedSlots = st.closedSlots ∧
    (runReadLoop st items).eventsClosedCount = st.eventsClosedCount := by
  induction items generalizing st with
  | nil => exact ⟨rfl, rfl⟩
  | cons it rest ih =>
    have hit : it ≠ .err := fun he => h (by rw [he]; exact List.mem_cons_self _ _)
    have hrest : ReadItem.err ∉ rest := fun hr => h (List.mem_cons_of_mem _ hr)
    have hstep := readStep_not_err_frame st it hit
    cases it with
    | err => exact absurd rfl hit
    | malformed =>
      rw [runReadLoop]
      have := ih (readStep st .malformed) hrest
      rw [this.1, this.2, hstep.1, hstep.2]
      exact ⟨rfl, rfl⟩
    | frame c r =>
      rw [runReadLoop]
      have := ih (readStep st (.frame c r)) hrest
      rw [this.1, this.2, hstep.1, hstep.2]
      exact ⟨rfl, rfl⟩

theorem runReadLoop_until_err (st : MuxState) (pre rest : List ReadItem)
    (hpre : ReadItem.err ∉ pre) :
    runReadLoop st (pre ++ .err :: rest) = readStep (runReadLoop st pre) .err := by
  induction pre generalizing st with
  | nil => rfl
  | cons it pre' ih =>
    have hit : it ≠ .err := fun he => hpre (by rw [he]; exact List.mem_cons_self _ _)
    have hpre' : ReadItem.err ∉ pre' := fun hr => hpre (List.mem_cons_of_mem _ hr)
    cases it with
    | err => exact absurd rfl hit
    | malformed =>
      rw [List.cons_append, runReadLoop, runReadLoop]
      exact ih (readStep st .malformed) hpre'
    | frame c r =>
      rw [List.cons_append, runReadLoop, runReadLoop]
      exact ih (readStep st (.frame c r)) hpre'

/-- C2: when the reader hits a read error after any error-free interval,
it resolves every then-pending slot with the connection-closed failure
(the closed channel makes the blocked `sendRaw` return an error), empties
the pending table in the same locked section, closes the event stream, and
stops — so the close happens exactly once and no later item is processed;
and no error-free run ever closes a slot or the event stream, making the
read-error branch the sole teardown path. -/
theorem c2_teardown_on_read_failure (st : MuxState) (pre rest : List ReadItem)
    (hpre : ReadItem.err ∉ pre) :
    (runReadLoop st (pre ++ .err :: rest)).pending = [] ∧
    (runReadLoop st (pre ++ .err :: rest)).closedSlots =
      st.closedSlots ++ (runReadLoop st pre).pending.map (fun p => p.2) ∧
    (∀ slot ∈ (runReadLoop st pre).pending.map (fun p => p.2),
      slot ∈ (runReadLoop st (pre ++ .err :: rest)).closedSlots) ∧
    (runReadLoop st (pre ++ .err :: rest)).eventsClosedCount =
      st.eventsClosedCount + 1 ∧
    sendRawAwait none = none ∧
    (∀ items, ReadItem.err ∉ items →
      (runReadLoop st items).eventsClosedCount = st.eventsClosedCount ∧
      (runReadLoop st items).closedSlots = st.closedSlots) := by
  have hne := runReadLoop_no_err st pre hpre
  rw [runReadLoop_until_err st pre rest hpre]
  refine ⟨rfl, ?_, ?_, ?_, rfl, fun items h =>
    ⟨(runReadLoop_no_err st items h).2, (runReadLoop_no_err st items h).1⟩⟩
  · simp only [readStep, hne.1]
  · intro slot hs
    simp only [readStep, hne.1, List.mem_append]
    exact Or.inr hs
  · simp only [readStep, hne.2]

/-- Witness: C2 on a run with two pending sends (slots 10 and 20), one
delivered frame, then a read error: both slots resolve as closed, the
table empties, and the event stream closes exactly once. -/
theorem c2_teardown_on_read_failure_witness :
    (runReadLoop (MuxState.mk [([49], 10), ([50], 20)] [] [] [] 0)
      [.malformed, .err]).pending = [] ∧
    (runReadLoop (MuxState.mk [([49], 10), ([50], 20)] [] [] [] 0)
      [.malformed, .err]).closedSlots = [10, 20] ∧
    (runReadLoop (MuxState.mk [([49], 10), ([50], 20)] [] [] [] 0)
      [.malformed, .err]).eventsClosedCount = 1 := by
  have h := c2_teardown_on_read_failure (MuxState.mk [([49], 10), ([50], 20)] [] [] [] 0)
    [.malformed] [] (by intro hc; simp at hc)
  simp only [List.cons_append, List.nil_append] at h
  refine ⟨h.1, ?_, h.2.2.2.1⟩
  rw [h.2.1]
  decide

/-- C3 counterexample: an inbound frame carrying corrId `"5"` ([53]) with
no pending registration and a payload whose `type` tag is empty is fully
discarded by `readLoop` — the state (in particular the event queue) is
unchanged, so the frame is not delivered to the event stream. -/
theorem c3_counterexample :
    mapLookup (MuxState.mk [] [] [] [] 0).pending [53] = none ∧
    readStep (MuxState.mk [] [] [] [] 0) (.frame (some [53]) (some ([], 7))) =
      MuxState.mk [] [] [] [] 0 := by
  exact ⟨rfl, rfl⟩

/-- C3 (amended): a frame whose corrId has no pending registration is
appended to the event stream when its payload is present with a non-empty
`type` tag and the event queue is below capacity; with a full queue, a nil
payload, or an empty `type` tag it is dropped instead. -/
theorem c3_unmatched_corr_id_becomes_event (st : MuxState) (c t : Str) (raw : Nat)
    (hpend : mapLookup st.pending c = none) :
    (t ≠ [] → st.eventsQ.length < eventsCap →
      readStep st (.frame (some c) (some (t, raw))) =
        { st with eventsQ := st.eventsQ ++ [(t, raw)] }) ∧
    (t ≠ [] → ¬st.eventsQ.length < eventsCap →
      readStep st (.frame (some c) (some (t, raw))) = st) ∧
    (t = [] → readStep st (.frame (some c) (some (t, raw))) = st) ∧
    readStep st (.frame (some c) none) = st := by
  refine ⟨?_, ?_, ?_, ?_⟩
  · intro ht hcap
    simp only [readStep, hpend]
    rw [if_pos (by simpa using ht), enqueueEvent, if_pos hcap]
  · intro ht hcap
    simp only [readStep, hpend]
    rw [if_pos (by simpa using ht), enqueueEvent, if_neg hcap]
  · intro ht
    simp only [readStep, hpend]
    rw [if_neg (by simpa using ht)]
  · simp only [readStep, hpend]

/-- Witness: C3 (amended) at a concrete state: corrId `"5"` unmatched,
payload type `"x"` ([120]), empty queue — the frame is enqueued. -/
theorem c3_unmatched_corr_id_becomes_event_witness :
    readStep (MuxState.mk [] [] [] [] 0) (.frame (some [53]) (some ([120], 7))) =
      MuxState.mk [] [([120], 7)] [] [] 0 := by
  have h := (c3_unmatched_corr_id_becomes_event (MuxState.mk [] [] [] [] 0)
    [53] [120] 7 (by decide)).1 (by decide) (by decide)
  rw [h]
  decide

/-- C10: a `sendRaw` whose marshal or write step fails deletes the
registration it just created, so with a fresh correlation id (the
monotonic counter never reuses a live one) the pending table after the
failed call is exactly the table before it. -/
theorem c10_failed_send_leaves_table_unchanged :
    (∀ (pending : List (Str × Nat)) (corrID : Str) (slot : Nat) (writeOk : Bool),
      mapLookup pending corrID = none →
      sendRawPending pending corrID slot false writeOk = pending) ∧
    (∀ (pending : List (Str × Nat)) (corrID : Str) (slot : Nat),
      mapLookup pending corrID = none →
      sendRawPending pending corrID slot true false = pending) ∧
    (∀ (pending : List (Str × Nat)) (corrID : Str) (slot : Nat),
      sendRawPending pending corrID slot true true = mapInsert pending corrID slot) := by
  refine ⟨?_, ?_, fun pending corrID slot => rfl⟩
  · intro pending corrID slot writeOk h
    exact mapErase_mapInsert pending corrID slot h
  · intro pending corrID slot h
    exact mapErase_mapInsert pending corrID slot h

/-- Witness: C10 with one unrelated registration and a failing write: the
table keeps exactly the unrelated entry. -/
theorem c10_failed_send_leaves_table_unchanged_witness :
    sendRawPending [([49], 10)] [50] 20 true false = [([49], 10)] :=
  c10_failed_send_leaves_table_unchanged.2.1 [([49], 10)] [50] 20 (by decide)

/-! Connection lifecycle: `tryConnect` and `eventLoop`
(pkg/connector/login.go). The retry delay is computed by
`retryIn := 2 << retryCount; if retryIn > 150 { retryIn = 150 }` on a
64-bit Go `int`, so the shift wraps in two's complement. -/

/-- Two's-complement value of a natural number truncated to 64 bits. -/
def wrap64 (n : Nat) : Int :=
  if n % 2 ^ 64 < 2 ^ 63 then ((n % 2 ^ 64 : Nat) : Int)
  else ((n % 2 ^ 64 : Nat) : Int) - 2 ^ 64

/-- Go's `2 << retryCount` on a 64-bit signed int. -/
def goTwoShl (retryCount : Nat) : Int := wrap64 (2 * 2 ^ retryCount)

/-- Retry delay in seconds computed by `tryConnect` before retrying a
failed dial: `retryIn := 2 << retryCount`, capped above at 150. -/
def retryDelay (retryCount : Nat) : Int :=
  if goTwoShl retryCount > 150 then 150 else goTwoShl retryCount

/-- Outcome of one `simplexclient.New` dial inside `tryConnect`. -/
inductive DialOutcome where
  | fail : DialOutcome
  | ok : DialOutcome
deriving DecidableEq

/-- Run of the `tryConnect` recursion over a finite list of dial
outcomes, starting at a given `retryCount`: each failure waits
`retryDelay retryCount` and recurses with `retryCount + 1`; a success
stops (connected); an exhausted list models a run still in progress (or
cancelled during the wait), never a give-up. Returns the delays waited
and whether a connection was established. -/
def tryConnectRun : Nat → List DialOutcome → List Int × Bool
  | _, [] => ([], false)
  | _, .ok :: _ => ([], true)
  | r, .fail :: rest =>
    let p := tryConnectRun (r + 1) rest
    (retryDelay r :: p.1, p.2)

/-- Input observed by one `eventLoop` select iteration. -/
inductive EventLoopInput where
  | ctxDone : EventLoopInput
  | channelClosed : EventLoopInput
  | event (raw : Nat) : EventLoopInput
deriving DecidableEq

/-- Action `eventLoop` takes on that input. -/
inductive EventLoopAction where
  | stop : EventLoopAction
  | reconnect (retryCount : Nat) : EventLoopAction
  | handle (raw : Nat) : EventLoopAction
deriving DecidableEq

/-- One `eventLoop` iteration: context cancellation returns; a closed
event channel reports transient-disconnect and calls
`tryConnect(ctx, 0)`; an event is handled. -/
def eventLoopStep : EventLoopInput → EventLoopAction
  | .ctxDone => .stop
  | .channelClosed => .reconnect 0
  | .event raw => .handle raw

/-- C4 counterexample: the claim says the wait before retry attempt 0 is
2^0 = 1 second; the code computes `2 << 0` = 2 seconds. -/
theorem c4_counterexample : retryDelay 0 = 2 ∧ retryDelay 0 ≠ 1 := by
  constructor <;> decide

theorem goTwoShl_small (a : Nat) (h : a ≤ 61) : goTwoShl a = 2 ^ (a + 1) := by
  have h2 : 2 * 2 ^ a = 2 ^ (a + 1) := by rw [Nat.pow_succ]; ring
  have hlt : (2 : Nat) ^ (a + 1) < 2 ^ 63 :=
    Nat.pow_lt_pow_right (by norm_num) (by omega)
  have hlt64 : (2 : Nat) ^ (a + 1) < 2 ^ 64 := lt_trans hlt (by norm_num)
  rw [goTwoShl, wrap64, h2, Nat.mod_eq_of_lt hlt64]
  rw [if_pos (by exact_mod_cast hlt)]
  push_cast
  rfl

/-- C4 (amended): for attempts 0 through 61 the wait before retry attempt
`a` is min(2^(a+1), 150) seconds — twice the claimed 2^a — and over that
range the delay sequence is monotonically non-decreasing; for every number
of consecutive dial failures the state machine waits these delays in order
and is still retrying (it never gives up on its own); and when the event
stream closes while connected, `eventLoop` restarts reconnection with the
attempt counter reset to zero. (Beyond attempt 61 the 64-bit shift
`2 << retryCount` overflows, so the formula is stated on 0..61.) -/
theorem c4_backoff_amended :
    (∀ a : Nat, a ≤ 61 → retryDelay a = min ((2 : Int) ^ (a + 1)) 150) ∧
    (∀ a : Nat, a < 61 → retryDelay a ≤ retryDelay (a + 1)) ∧
    (∀ n : Nat, tryConnectRun 0 (List.replicate n .fail) =
      ((List.range n).map retryDelay, false)) ∧
    eventLoopStep .channelClosed = .reconnect 0 := by
  have hform : ∀ a : Nat, a ≤ 61 → retryDelay a = min ((2 : Int) ^ (a + 1)) 150 := by
    intro a ha
    rw [retryDelay, goTwoShl_small a ha]
    rcases le_or_lt ((2 : Int) ^ (a + 1)) 150 with h' | h'
    · rw [if_neg (by omega), min_eq_left h']
    · rw [if_pos h', min_eq_right (by omega)]
  have hrun : ∀ r n : Nat, tryConnectRun r (List.replicate n .fail) =
      ((List.range n).map (fun i => retryDelay (r + i)), false) := by
    intro r n
    induction n generalizing r with
    | zero => rfl
    | succ n ih =>
      rw [List.replicate_succ, tryConnectRun, ih (r + 1)]
      rw [List.range_succ_eq_map, List.map_cons, List.map_map]
      refine congrArg (fun l => (_ :: l, false)) ?_
      refine List.map_congr_left ?_
      intro i _
      simp only [Function.comp_apply, Nat.succ_eq_add_one]
      rw [show r + (i + 1) = r + 1 + i by omega]
  refine ⟨hform, ?_, ?_, rfl⟩
  · intro a ha
    rw [hform a (by omega), hform (a + 1) (by omega)]
    refine min_le_min ?_ le_rfl
    exact pow_le_pow_right₀ (by norm_num) (by omega)
  · intro n
    rw [hrun 0 n]
    refine congrArg (fun l => (l, false)) ?_
    refine List.map_congr_left ?_
    intro i _
    rw [Nat.zero_add]

/-- Witness: C4 (amended) at attempts 7 (capped to 150) and 3 ≤ 4. -/
theorem c4_backoff_amended_witness :
    retryDelay 7 = 150 ∧ retryDelay 3 ≤ retryDelay 4 := by
  refine ⟨?_, c4_backoff_amended.2.1 3 (by omega)⟩
  rw [c4_backoff_amended.1 7 (by omega)]
  decide

/-! Reaction normalization: `simplexSupportedEmojis`,
`normalizeEmojiForSimplex`, `HandleMatrixReaction` and
`HandleMatrixReactionRemove` (pkg/connector/connector.go). Emoji are code
point lists; 65039 is the variant selector U+FE0F. -/

/-- Lookup in a Go `map[string]string`. -/
def strMapLookup : List (Str × Str) → Str → Option Str
  | [], _ => none
  | p :: tl, k => if p.1 = k then some p.2 else strMapLookup tl k

theorem strMapLookup_mem (l : List (Str × Str)) (k v : Str)
    (h : strMapLookup l k = some v) : (k, v) ∈ l := by
  induction l with
  | nil => exact absurd h (by simp [strMapLookup])
  | cons p tl ih =>
    rw [strMapLookup] at h
    split at h
    · rename_i he
      rcases p with ⟨a, b⟩
      simp only [Option.some.injEq] at h
      simp only at he
      rw [he, h]
      exact List.mem_cons_self _ _
    · exact List.mem_cons_of_mem _ (ih h)

/-- simplexSupportedEmojis from pkg/connector: the 8 supported emoji
(👍 👎 😀 😂 😢 ❤ 🚀 ✅) with the variant-selector spellings the map lists,
each mapped to the single canonical form. -/
def simplexSupportedEmojis : List (Str × Str) :=
  [([128077], [128077]), ([128077, 65039], [128077]),
   ([128078], [128078]), ([128078, 65039], [128078]),
   ([128512], [128512]), ([128514], [128514]), ([128546], [128546]),
   ([10084], [10084]), ([10084, 65039], [10084]),
   ([128640], [128640]), ([9989], [9989]), ([9989, 65039], [9989])]

/-- normalizeEmojiForSimplex from pkg/connector: map lookup, `none` for
unsupported emoji. -/
def normalizeEmojiForSimplex (emoji : Str) : Option Str :=
  strMapLookup simplexSupportedEmojis emoji

/-- Remote effect of a Matrix reaction handler as far as the emoji is
concerned: either no `ReactToChatItem` command at all, or one carrying
the given emoji with the add/remove flag. -/
inductive ReactionOutcome where
  | noCommand : ReactionOutcome
  | command (emoji : Str) (add : Bool) : ReactionOutcome
deriving DecidableEq

/-- Emoji path of `HandleMatrixReaction`: normalize, silently no-op when
unsupported, otherwise `ReactToChatItem(..., emoji, true)` with the
normalized emoji. -/
def handleMatrixReactionEmoji (emoji : Str) : ReactionOutcome :=
  match normalizeEmojiForSimplex emoji with
  | some e => .command e true
  | none => .noCommand

/-- Emoji path of `HandleMatrixReactionRemove`: the stored reaction emoji
is passed straight to `ReactToChatItem(..., emoji, false)` — no
normalization and no supported-set check. -/
def handleMatrixReactionRemoveEmoji (emoji : Str) : ReactionOutcome :=
  .command emoji false

/-- C5 counterexample: 🔥 (128293) is outside the supported set, yet the
remove handler still issues a remote command carrying it, where the claim
requires rejection with no remote command on both add and remove. -/
theorem c5_counterexample :
    normalizeEmojiForSimplex [128293] = none ∧
    handleMatrixReactionRemoveEmoji [128293] = .command [128293] false ∧
    handleMatrixReactionRemoveEmoji [128293] ≠ .noCommand := by
  refine ⟨by decide, rfl, by decide⟩

/-- C5 (amended): on reaction add, an emoji outside the supported map is
rejected with no remote command, and a supported one (including its
variant-selector spellings) is sent in its canonical single form — a form
that is itself in the 8-symbol canonical set and a fixed point of the
normalization; on reaction remove, the stored emoji is passed through
unchanged with no normalization or rejection. -/
theorem c5_reaction_normalization_amended :
    (∀ e : Str, normalizeEmojiForSimplex e = none →
      handleMatrixReactionEmoji e = .noCommand) ∧
    (∀ e m : Str, normalizeEmojiForSimplex e = some m →
      handleMatrixReactionEmoji e = .command m true ∧
      m ∈ [[128077], [128078], [128512], [128514], [128546], [10084],
        [128640], [9989]] ∧
      normalizeEmojiForSimplex m = some m) ∧
    (∀ e : Str, handleMatrixReactionRemoveEmoji e = .command e false) := by
  refine ⟨?_, ?_, fun e => rfl⟩
  · intro e h
    rw [handleMatrixReactionEmoji, h]
  · intro e m h
    have hmem : (e, m) ∈ simplexSupportedEmojis := strMapLookup_mem _ _ _ h
    have hall : ∀ p ∈ simplexSupportedEmojis,
        p.2 ∈ [[128077], [128078], [128512], [128514], [128546], [10084],
          [128640], [9989]] ∧
        normalizeEmojiForSimplex p.2 = some p.2 := by decide
    refine ⟨by rw [handleMatrixReactionEmoji, h], (hall (e, m) hmem).1,
      (hall (e, m) hmem).2⟩

/-- Witness: C5 (amended) at 👍+VS16 (add, canonicalized to 👍) and an
arbitrary emoji on remove. -/
theorem c5_reaction_normalization_amended_witness :
    handleMatrixReactionEmoji [128077, 65039] = .command [128077] true ∧
    handleMatrixReactionEmoji [128293] = .noCommand ∧
    handleMatrixReactionRemoveEmoji [9989] = .command [9989] false :=
  ⟨(c5_reaction_normalization_amended.2.1 [128077, 65039] [128077] (by decide)).1,
   c5_reaction_normalization_amended.1 [128293] (by decide),
   c5_reaction_normalization_amended.2.2 [9989]⟩

/-! One-shot fallback channel and the retry-once wrapper:
`sendOneShotCmd` and `sendCmdRetryOnce` (pkg/simplexclient websocket
client). A raw response is modelled as its best-effort `type` tag
(`none` when the type unmarshal fails) plus an identifier for the bytes. -/

/-- Raw response payload: parseable type tag, opaque bytes id. -/
abbrev RawResp := Option Str × Nat

/-- Control flow of `sendCmdRetryOnce`: `sendRaw` on the persistent
connection first (`primary`, `none` = error); on success parse the type
(parse failure is an error with no retry); on `sendRaw` failure call
`sendOneShotCmd` exactly once and return its result. Second component
counts the one-shot invocations. -/
def sendCmdRetryOnce (primary : Option RawResp)
    (oneShot : Option (Str × Nat)) : Option (Str × Nat) × Nat :=
  match primary with
  | some raw =>
    match raw.1 with
    | some t => (some (t, raw.2), 0)
    | none => (none, 0)
  | none => (oneShot, 1)

/-- One result of `ws.Read` inside the `sendOneShotCmd` read loop. -/
inductive OneShotRead where
  | err : OneShotRead
  | malformed : OneShotRead
  | frame (corrId : Option Str) (resp : RawResp) : OneShotRead
deriving DecidableEq

/-- Read loop of `sendOneShotCmd`: skip frames whose envelope fails to
unmarshal and frames whose corrId is absent or differs from our own; stop
with an error on a read error; on the first matching frame return its
parsed type and payload (type-parse failure is an error). `none` means
the loop is still reading. -/
def oneShotScan (corrId : Str) : List OneShotRead → Option (Option (Str × Nat))
  | [] => none
  | .err :: _ => some none
  | .malformed :: rest => oneShotScan corrId rest
  | .frame c r :: rest =>
    if c = some corrId then
      some (match r.1 with
        | some t => some (t, r.2)
        | none => none)
    else oneShotScan corrId rest

/-- `sendOneShotCmd`: dial a fresh connection, marshal, write the single
command, then scan reads for the own correlation id. First component
counts `ws.Write` executions. -/
def sendOneShotCmd (dialOk marshalOk writeOk : Bool) (corrId : Str)
    (reads : List OneShotRead) : Nat × Option (Option (Str × Nat)) :=
  if dialOk = false then (0, some none)
  else if marshalOk = false then (0, some none)
  else if writeOk = false then (1, some none)
  else (1, oneShotScan corrId reads)

/-- Reads that the one-shot loop skips: malformed envelopes and frames
with an absent or foreign corrId. -/
def oneShotSkips (corrId : Str) : OneShotRead → Bool
  | .err => false
  | .malformed => true
  | .frame c _ => decide (c ≠ some corrId)

/-- C6: the retry-once wrapper invokes the one-shot channel at most once —
exactly once when and only when the persistent-connection send fails, and
never on success (its result then does not depend on the one-shot channel
at all); the one-shot channel itself performs at most one write, discards
every non-matching frame until the first frame carrying its own
correlation id, whose payload it returns, and gives up with an error at
the first read failure (no retry of its own, whatever would follow). -/
theorem c6_file_send_retried_exactly_once :
    (∀ primary oneShot, (sendCmdRetryOnce primary oneShot).2 ≤ 1) ∧
    (∀ primary oneShot,
      (sendCmdRetryOnce primary oneShot).2 = 1 ↔ primary = none) ∧
    (∀ raw oneShot oneShot',
      sendCmdRetryOnce (some raw) oneShot = sendCmdRetryOnce (some raw) oneShot') ∧
    (∀ oneShot, sendCmdRetryOnce none oneShot = (oneShot, 1)) ∧
    (∀ dialOk marshalOk writeOk corrId reads,
      (sendOneShotCmd dialOk marshalOk writeOk corrId reads).1 ≤ 1) ∧
    (∀ corrId reads,
      sendOneShotCmd true true true corrId reads = (1, oneShotScan corrId reads)) ∧
    (∀ corrId pre r rest, (∀ it ∈ pre, oneShotSkips corrId it = true) →
      oneShotScan corrId (pre ++ .frame (some corrId) r :: rest) =
        some (match r.1 with | some t => some (t, r.2) | none => none)) ∧
    (∀ corrId pre rest, (∀ it ∈ pre, oneShotSkips corrId it = true) →
      oneShotScan corrId (pre ++ .err :: rest) = some none) := by
  have hscan : ∀ (corrId : Str) (pre : List OneShotRead) (tail : List OneShotRead),
      (∀ it ∈ pre, oneShotSkips corrId it = true) →
      oneShotScan corrId (pre ++ tail) = oneShotScan corrId tail := by
    intro corrId pre tail hpre
    induction pre with
    | nil => rfl
    | cons it pre' ih =>
      have hit := hpre it (List.mem_cons_self _ _)
      have hpre' : ∀ x ∈ pre', oneShotSkips corrId x = true :=
        fun x hx => hpre x (List.mem_cons_of_mem _ hx)
      cases it with
      | err => exact absurd hit (by simp [oneShotSkips])
      | malformed =>
        rw [List.cons_append, oneShotScan]
        exact ih hpre'
      | frame c r =>
        have hc : ¬(c = some corrId) := by simpa [oneShotSkips] using hit
        rw [List.cons_append, oneShotScan, if_neg hc]
        exact ih hpre'
  refine ⟨?_, ?_, fun raw oneShot oneShot' => rfl, fun oneShot => rfl, ?_, ?_, ?_, ?_⟩
  · intro primary oneShot
    rcases primary with _ | raw
    · exact le_rfl
    · rcases h : raw.1 with _ | t <;> simp [sendCmdRetryOnce, h]
  · intro primary oneShot
    rcases primary with _ | raw
    · simp [sendCmdRetryOnce]
    · rcases h : raw.1 with _ | t <;> simp [sendCmdRetryOnce, h]
  · intro dialOk marshalOk writeOk corrId reads
    rw [sendOneShotCmd]
    split
    · exact Nat.zero_le 1
    · split
      · exact Nat.zero_le 1
      · split <;> exact le_rfl
  · intro corrId reads
    rfl
  · intro corrId pre r rest hpre
    rw [hscan corrId pre _ hpre, oneShotScan, if_pos rfl]
  · intro corrId pre rest hpre
    rw [hscan corrId pre _ hpre, oneShotScan]

/-- Witness: C6 at a failing primary send whose one-shot fallback scans
past a malformed frame and a foreign corrId `"2"` ([50]) before matching
its own corrId `"1"` ([49]). -/
theorem c6_file_send_retried_exactly_once_witness :
    sendCmdRetryOnce none (some ([116], 2)) = (some ([116], 2), 1) ∧
    oneShotScan [49]
      [.malformed, .frame (some [50]) (some [97], 1),
        .frame (some [49]) (some [116], 2)] = some (some ([116], 2)) := by
  refine ⟨c6_file_send_retried_exactly_once.2.2.2.1 (some ([116], 2)), ?_⟩
  have h := c6_file_send_retried_exactly_once.2.2.2.2.2.2.1 [49]
    [.malformed, .frame (some [50]) (some [97], 1)] (some [116], 2) []
    (by decide)
  simpa using h

/-! Chat sync: `syncChats` (pkg/connector/handlesimplex.go). A queued
`ChatResync` remote event is reduced to the fields the claim is about:
the portal id, the `CreatePortal` flag, and whether the chat-info
callback keeps the member list (on reconnect the wrapper sets
`info.Members = nil`). -/

/-- One queued ChatResync operation. -/
structure ResyncOp where
  portalID : Str
  createPortal : Bool
  withMembers : Bool
deriving DecidableEq

/-- syncChats: `isReconnect := meta.ChatsSynced`; list contacts and groups
(each `none` models a listing error, skipping that category); queue one
ChatResync per chat with `CreatePortal: true` and the member-stripping
wrapper exactly when reconnecting; finally persist `ChatsSynced = true`.
Returns the queued operations in order and the saved flag. -/
def syncChats (chatsSynced : Bool) (contacts : Option (List Int))
    (groups : Option (List Int)) : List ResyncOp × Bool :=
  let withMembers := !chatsSynced
  let contactOps := match contacts with
    | none => []
    | some cs => cs.map (fun c => ResyncOp.mk (makeDMPortalID c) true withMembers)
  let groupOps := match groups with
    | none => []
    | some gs => gs.map (fun g => ResyncOp.mk (makeGroupPortalID g) true withMembers)
  (contactOps ++ groupOps, true)

/-- C8: a first-ever connect (flag false) queues one resync per contact
and per group, every operation with `CreatePortal = true` and member data
included, and persists the flag as true; a reconnect (flag true) queues
resyncs for exactly the same portals with the same `CreatePortal`, but
with the member list stripped from every chat info. -/
theorem c8_chat_sync_full_vs_incremental :
    (∀ cs gs : List Int, syncChats false (some cs) (some gs) =
      (cs.map (fun c => ResyncOp.mk (makeDMPortalID c) true true) ++
        gs.map (fun g => ResyncOp.mk (makeGroupPortalID g) true true), true)) ∧
    (∀ cs gs : List Int, syncChats true (some cs) (some gs) =
      (cs.map (fun c => ResyncOp.mk (makeDMPortalID c) true false) ++
        gs.map (fun g => ResyncOp.mk (makeGroupPortalID g) true false), true)) ∧
    (∀ (b : Bool) (cs gs : List Int),
      ((syncChats b (some cs) (some gs)).1.map
          (fun op => (op.portalID, op.createPortal))) =
        cs.map (fun c => (makeDMPortalID c, true)) ++
          gs.map (fun g => (makeGroupPortalID g, true))) ∧
    (∀ (b : Bool) (cs gs : List Int),
      ∀ op ∈ (syncChats b (some cs) (some gs)).1,
        op.createPortal = true ∧ op.withMembers = !b) ∧
    (∀ (b : Bool) (c g : Option (List Int)), (syncChats b c g).2 = true) := by
  refine ⟨fun cs gs => rfl, fun cs gs => rfl, ?_, ?_, ?_⟩
  · intro b cs gs
    rw [syncChats]
    simp only [List.map_append, List.map_map]
    rfl
  · intro b cs gs op hop
    simp only [syncChats, List.mem_append, List.mem_map] at hop
    rcases hop with ⟨c, _, rfl⟩ | ⟨g, _, rfl⟩ <;> exact ⟨rfl, rfl⟩
  · intro b c g
    rfl

/-- Witness: C8 scenario — first connect with contacts [1, 2] and group
[3] queues three creating resyncs with members; the reconnect queues the
same three portals with members stripped. -/
theorem c8_chat_sync_full_vs_incremental_witness :
    syncChats false (some [1, 2]) (some [3]) =
      ([ResyncOp.mk (makeDMPortalID 1) true true,
        ResyncOp.mk (makeDMPortalID 2) true true,
        ResyncOp.mk (makeGroupPortalID 3) true true], true) ∧
    syncChats true (some [1, 2]) (some [3]) =
      ([ResyncOp.mk (makeDMPortalID 1) true false,
        ResyncOp.mk (makeDMPortalID 2) true false,
        ResyncOp.mk (makeGroupPortalID 3) true false], true) := by
  refine ⟨?_, ?_⟩
  · rw [c8_chat_sync_full_vs_incremental.1 [1, 2] [3]]
    rfl
  · rw [c8_chat_sync_full_vs_incremental.2.1 [1, 2] [3]]
    rfl

end Bridge
